import Mathlib

/-!
Verification of the PDF-Factory repository (listenzcc/PDF-Factory).

Shallow embedding of `util/font.py`, `util/svg.py`, `util/pdf.py` and
`config.py`.  Side-effecting library primitives (font registration,
SVG parsing, PDF rendering) are modelled as oracle parameters; the
repository's own control flow and data flow are translated faithfully.
-/

namespace PDFFactory

/-! ## Font resolver — `util/font.py` -/

/-- The fixed per-OS system font paths, in the declaration order of
`register_chinese_font` (Windows, MacOS, Linux). -/
def sysFontPaths : List String :=
  [ "C:/Windows/Fonts/msyh.ttc",
    "C:/Windows/Fonts/simsun.ttc",
    "C:/Windows/Fonts/simhei.ttf",
    "/System/Library/Fonts/STSong.ttf",
    "/System/Library/Fonts/STHeiti Medium.ttc",
    "/usr/share/fonts/wenquanyi/wqy-zenhei.ttc",
    "/usr/share/fonts/truetype/wqy/wqy-zenhei.ttc" ]

/-- `os.path.basename` on a posix-style path: the component after the last
separator (`p[p.rfind('/')+1:]`). -/
def basename (p : String) : String :=
  ⟨(p.data.reverse.takeWhile (fun c => c ≠ '/')).reverse⟩

/-- The root part of `os.path.splitext` applied to a basename: drop the
suffix starting at the last dot, unless every character before that dot
is itself a dot (so `.bashrc` keeps its name, as in Python). -/
def stripExt (b : String) : String :=
  let rev := b.data.reverse
  if rev.contains '.' then
    let extRev := rev.takeWhile (fun c => c ≠ '.')
    let rootRev := rev.drop (extRev.length + 1)
    if rootRev.all (fun c => c = '.') then b else ⟨rootRev.reverse⟩
  else b

/-- The environment key read for the font override
(`os.environ.get('pdfFactory.font.cn.path')`). -/
def fontCnKey : String := "pdfFactory.font.cn.path"

/-- An environment namespace: a partial map from keys to string values. -/
abbrev Env : Type := String → Option String

/-- The ordered candidate list of `register_chinese_font`: the environment
override first (when present and non-empty — Python's truthiness test on the
walrus assignment), then the fixed system font paths. -/
def fontCandidates (env : Env) : List String :=
  (match env fontCnKey with
   | some p => if p = "" then [] else [p]
   | none => []) ++ sysFontPaths

/-- The fallback CID font name (`default_font_name` in the source). -/
def defaultFontName : String := "STSong-Light"

/-- The message of the exception raised when no font at all registers. -/
def noUsableFontMsg : String := "无法注册中文字体，请确保系统安装了中文字体"

/-- The `for path in font_paths` loop: try each candidate; on success return
the candidate's base name without extension (the registered name); on any
failure continue with the next.  `regTTF` is the oracle telling whether
`pdfmetrics.registerFont(TTFont(font_name, path))` succeeds for `path`. -/
def tryFontPaths (regTTF : String → Bool) : List String → Option String
  | [] => none
  | p :: rest =>
      if regTTF p then some (stripExt (basename p))
      else tryFontPaths regTTF rest

/-- `register_chinese_font` of `util/font.py`.  `regTTF p` says whether
TrueType registration succeeds for candidate path `p`; `regCID` says whether
the fallback `UnicodeCIDFont('STSong-Light')` registration succeeds.  Returns
the registered font name, or the fatal error message. -/
def register_chinese_font (env : Env) (regTTF : String → Bool)
    (regCID : Bool) : Except String String :=
  match tryFontPaths regTTF (fontCandidates env) with
  | some name => .ok name
  | none => if regCID then .ok defaultFontName else .error noUsableFontMsg

theorem tryFontPaths_append_of_fail (regTTF : String → Bool)
    (l₁ l₂ : List String) (h : ∀ q ∈ l₁, regTTF q = false) :
    tryFontPaths regTTF (l₁ ++ l₂) = tryFontPaths regTTF l₂ := by
  induction l₁ with
  | nil => rfl
  | cons a l ih =>
      simp only [List.cons_append, tryFontPaths]
      rw [h a (List.mem_cons_self a l)]
      simp only [Bool.false_eq_true, if_false]
      exact ih (fun q hq => h q (List.mem_cons_of_mem a hq))

theorem tryFontPaths_eq_none (regTTF : String → Bool) (l : List String)
    (h : ∀ q ∈ l, regTTF q = false) : tryFontPaths regTTF l = none := by
  induction l with
  | nil => rfl
  | cons a l ih =>
      simp only [tryFontPaths]
      rw [h a (List.mem_cons_self a l)]
      simp only [Bool.false_eq_true, if_false]
      exact ih (fun q hq => h q (List.mem_cons_of_mem a hq))

/-- C1: `register_chinese_font` tries its candidates in order (override
first, then the per-OS system paths); the first candidate that registers
determines the result — the candidate file's base name without extension;
if every candidate fails it registers the CID fallback and returns
`STSong-Light`; the "no usable font" error is raised exactly when the
fallback registration itself fails too. -/
theorem register_chinese_font_spec (env : Env) (regTTF : String → Bool)
    (regCID : Bool) :
    (∀ l₁ p l₂, fontCandidates env = l₁ ++ p :: l₂ →
      (∀ q ∈ l₁, regTTF q = false) → regTTF p = true →
      register_chinese_font env regTTF regCID = .ok (stripExt (basename p)))
    ∧ ((∀ p ∈ fontCandidates env, regTTF p = false) → regCID = true →
        register_chinese_font env regTTF regCID = .ok defaultFontName)
    ∧ (register_chinese_font env regTTF regCID = .error noUsableFontMsg ↔
        (∀ p ∈ fontCandidates env, regTTF p = false) ∧ regCID = false) := by
  refine ⟨?_, ?_, ?_⟩
  · intro l₁ p l₂ hsplit hfail hp
    unfold register_chinese_font
    rw [hsplit, tryFontPaths_append_of_fail regTTF l₁ (p :: l₂) hfail]
    simp [tryFontPaths, hp]
  · intro hfail hcid
    unfold register_chinese_font
    rw [tryFontPaths_eq_none regTTF _ hfail, hcid]
    rfl
  · constructor
    · intro herr
      unfold register_chinese_font at herr
      rcases hcase : tryFontPaths regTTF (fontCandidates env) with _ | name
      · rw [hcase] at herr
        rcases hcid : regCID with _ | _
        · refine ⟨?_, rfl⟩
          intro p hp
          by_contra hne
          have hp' : regTTF p = true := by
            cases hval : regTTF p
            · exact absurd hval hne
            · rfl
          -- a succeeding candidate contradicts tryFontPaths = none
          obtain ⟨l₁, l₂, hsplit⟩ := List.append_of_mem hp
          by_cases hall : ∀ q ∈ l₁, regTTF q = false
          · rw [hsplit, tryFontPaths_append_of_fail regTTF l₁ (p :: l₂) hall]
              at hcase
            simp [tryFontPaths, hp'] at hcase
          · -- some earlier candidate succeeds: find the first one
            push_neg at hall
            obtain ⟨q, hq, hqreg⟩ := hall
            have hq' : regTTF q = true := by
              cases hval : regTTF q
              · exact absurd hval hqreg
              · rfl
            have : tryFontPaths regTTF (fontCandidates env) ≠ none := by
              rw [hsplit]
              clear hcase hsplit
              induction l₁ with
              | nil => simp at hq
              | cons a l ih =>
                  simp only [List.cons_append, tryFontPaths]
                  rcases List.mem_cons.mp hq with h | h
                  · subst h
                    simp [hq']
                  · cases hval : regTTF a
                    · simp only [Bool.false_eq_true, if_false]
                      exact ih h
                    · simp
            exact absurd hcase this
        · rw [hcid] at herr
          simp at herr
      · rw [hcase] at herr
        simp at herr
    · rintro ⟨hfail, hcid⟩
      unfold register_chinese_font
      rw [tryFontPaths_eq_none regTTF _ hfail, hcid]
      rfl

/-- Witness for C1 at a concrete input: only the override path
`/tmp/myfont.ttf` registers, so the returned name is `myfont`. -/
theorem register_chinese_font_spec_witness :
    register_chinese_font
      (fun k => if k = fontCnKey then some "/tmp/myfont.ttf" else none)
      (fun p => p = "/tmp/myfont.ttf") false = .ok "myfont" := by
  have h := (register_chinese_font_spec
      (fun k => if k = fontCnKey then some "/tmp/myfont.ttf" else none)
      (fun p => p = "/tmp/myfont.ttf") false).1
      [] "/tmp/myfont.ttf" sysFontPaths (by decide)
      (by intro q hq; simp at hq) (by decide)
  have hname : stripExt (basename "/tmp/myfont.ttf") = "myfont" := by decide
  rw [hname] at h
  simpa using h

/-! ## Drawing cache — `util/svg.py` -/

/-- A reportlab `shapes.Drawing`, modelled by the attributes the repository
manipulates: the nominal `width`/`height` attributes and the accumulated
scale components of the group transform (`scale` post-multiplies the
transform and leaves `width`/`height` untouched). -/
structure Drawing where
  width : ℚ
  height : ℚ
  sx : ℚ
  sy : ℚ
deriving DecidableEq, Repr

/-- reportlab `Group.scale(kx, ky)`: multiply the transform's scale
components; the nominal bounds attributes are unchanged. -/
def Drawing.scale (d : Drawing) (kx ky : ℚ) : Drawing :=
  { d with sx := d.sx * kx, sy := d.sy * ky }

/-- reportlab `inch` unit: 72 points. -/
def inch : ℚ := 72

/-- The cache dictionary of `SVGCache` (`cache: dict[str, Drawing]`). -/
abbrev Cache : Type := List (String × Drawing)

/-- Dictionary lookup (`self.cache[key]` / `key in self.cache`). -/
def cacheFind (cache : Cache) (key : String) : Option Drawing :=
  match cache with
  | [] => none
  | (k, d) :: rest => if key = k then some d else cacheFind rest key

namespace SVGCache

/-- `SVGCache.insert`: store the drawing under the key and return it. -/
def insert (cache : Cache) (key : String) (d : Drawing) : Drawing × Cache :=
  (d, (key, d) :: cache)

/-- `SVGCache.checkout`: return the cached drawing when the key is cached;
otherwise read the path from the environment (`os.environ[key]`, a
`KeyError` when absent — modelled as the error value carrying the key),
parse it with `svg2rlg` (modelled as an oracle producing a `Drawing`) and
insert it. -/
def checkout (cache : Cache) (env : Env) (svg2rlg : String → Drawing)
    (key : String) : Except String (Drawing × Cache) :=
  match cacheFind cache key with
  | some d => .ok (d, cache)
  | none =>
      match env key with
      | some path => .ok (insert cache key (svg2rlg path))
      | none => .error key

/-- In-place mutation of the cached object: the dictionary still maps the
key to the (now mutated) drawing. -/
def update (cache : Cache) (key : String) (d : Drawing) : Cache :=
  match cache with
  | [] => []
  | (k, v) :: rest =>
      cond (k == key) ((k, d) :: update rest key d) ((k, v) :: update rest key d)

/-- `SVGCache.resize_drawing_by_height`: `h = height * inch`, check the
drawing out, and scale it in place by `k = h / drawing.height` on both
axes.  (`svg2rlg` is modelled as always producing a drawing, so the
truthiness guard on the checked-out value always passes.) -/
def resize_drawing_by_height (cache : Cache) (env : Env)
    (svg2rlg : String → Drawing) (key : String) (height : ℚ) :
    Except String (Drawing × Cache) :=
  let h := height * inch
  match checkout cache env svg2rlg key with
  | .error e => .error e
  | .ok (d, c) =>
      let k := h / d.height
      let d2 := d.scale k k
      .ok (d2, update c key d2)

theorem cacheFind_update (c : Cache) (key : String) (d : Drawing) :
    cacheFind (update c key d) key = (cacheFind c key).map (fun _ => d) := by
  induction c with
  | nil => rfl
  | cons a l ih =>
      obtain ⟨k0, v0⟩ := a
      by_cases h : key = k0
      · subst h
        simp [update, cacheFind]
      · have hb : (k0 == key) = false := beq_eq_false_iff_ne.mpr (Ne.symm h)
        simp [update, cacheFind, h, hb]
        exact ih

end SVGCache

/-! ## Configuration loader — `config.py` -/

/-- The values read from `config.yaml` (the file is external input). -/
structure ConfigYaml where
  fontCnPath : String
  svgLogoPath : String
  svgFramePath : String

/-- `projectEnvName` in `config.py`. -/
def projectEnvName : String := "pdfFactory"

/-- The `updates` dictionary built in `config.py`: the `font` and `svg`
key tables, each key prefixed with the project name. -/
def configUpdates (c : ConfigYaml) : List (String × String) :=
  ([("font.cn.path", c.fontCnPath)] ++
   [("svg.logo.path", c.svgLogoPath), ("svg.frame.path", c.svgFramePath)]).map
    (fun kv => (projectEnvName ++ "." ++ kv.1, kv.2))

/-- `os.environ.update(updates)`: the loaded keys shadow the prior
environment. -/
def loadConfig (env : Env) (c : ConfigYaml) : Env :=
  fun k =>
    match (configUpdates c).lookup k with
    | some v => some v
    | none => env k

/-- The environment with no keys set. -/
def emptyEnv : Env := fun _ => none

/-- `MySVG.firstPageFrame` in `util/pdf.py`. -/
def firstPageFrameKey : String := "pdfFactory.svg.frame.path"

/-- `MySVG.waterPrint` in `util/pdf.py`. -/
def waterPrintKey : String := "pdfFactory.svg.logoWaterPrint.path"

/-- C2: the configuration loader sets exactly the keys
`pdfFactory.font.cn.path`, `pdfFactory.svg.logo.path` and
`pdfFactory.svg.frame.path` — the watermark key
`pdfFactory.svg.logoWaterPrint.path` that `_prepare_svg` checks out is NOT
among them, so unless the surrounding environment already provides it the
watermark checkout fails with a missing-key error. -/
theorem config_waterPrint_missing (c : ConfigYaml) (env : Env)
    (h : env waterPrintKey = none) :
    (configUpdates c).map Prod.fst =
      ["pdfFactory.font.cn.path", "pdfFactory.svg.logo.path",
       "pdfFactory.svg.frame.path"] ∧
    loadConfig env c waterPrintKey = none ∧
    ∀ svg2rlg, SVGCache.checkout [] (loadConfig env c) svg2rlg waterPrintKey
      = .error waterPrintKey := by
  have hkeys : (configUpdates c).map Prod.fst =
      ["pdfFactory.font.cn.path", "pdfFactory.svg.logo.path",
       "pdfFactory.svg.frame.path"] := by
    simp [configUpdates, projectEnvName]
  have hlk : (configUpdates c).lookup waterPrintKey = none := by
    simp [configUpdates, projectEnvName, List.lookup, waterPrintKey]
  have henv : loadConfig env c waterPrintKey = none := by
    unfold loadConfig
    rw [hlk, h]
  refine ⟨hkeys, henv, ?_⟩
  intro svg2rlg
  unfold SVGCache.checkout
  rw [henv]
  rfl

/-- Witness for C2: with an empty surrounding environment and arbitrary
concrete configuration values, the watermark key is unresolvable. -/
theorem config_waterPrint_missing_witness :
    loadConfig emptyEnv ⟨"a", "b", "c"⟩ waterPrintKey = none ∧
    SVGCache.checkout [] (loadConfig emptyEnv ⟨"a", "b", "c"⟩)
      (fun _ => ⟨1, 1, 1, 1⟩) waterPrintKey = .error waterPrintKey := by
  have h := config_waterPrint_missing ⟨"a", "b", "c"⟩ emptyEnv rfl
  exact ⟨h.2.1, h.2.2 _⟩

/-- C7: checkout returns the cached instance unchanged (without consulting
the environment) when the key is cached; on a cache miss with an
environment-resolvable path it loads, caches, and every later checkout
returns that very instance with the cache unchanged, for any environment;
a key absent from both cache and environment is a missing-key error. -/
theorem checkout_spec (cache : Cache) (env : Env)
    (svg2rlg : String → Drawing) (key : String) :
    (∀ d, cacheFind cache key = some d →
      ∀ env2 : Env, SVGCache.checkout cache env2 svg2rlg key = .ok (d, cache)) ∧
    (cacheFind cache key = none → ∀ p, env key = some p →
      SVGCache.checkout cache env svg2rlg key
        = .ok (svg2rlg p, (key, svg2rlg p) :: cache) ∧
      ∀ env2 : Env,
        SVGCache.checkout ((key, svg2rlg p) :: cache) env2 svg2rlg key
          = .ok (svg2rlg p, (key, svg2rlg p) :: cache)) ∧
    (cacheFind cache key = none → env key = none →
      SVGCache.checkout cache env svg2rlg key = .error key) := by
  refine ⟨?_, ?_, ?_⟩
  · intro d hd env2
    unfold SVGCache.checkout
    rw [hd]
  · intro hmiss p hp
    constructor
    · unfold SVGCache.checkout
      rw [hmiss, hp]
      rfl
    · intro env2
      unfold SVGCache.checkout
      simp [cacheFind]
  · intro hmiss hnone
    unfold SVGCache.checkout
    rw [hmiss, hnone]

/-- Witness for C7 at concrete inputs: a one-key environment, an empty
cache; the first checkout loads and caches, the second returns the cached
drawing even under an empty environment. -/
theorem checkout_spec_witness :
    SVGCache.checkout [] (fun k => if k = "k" then some "p" else none)
      (fun _ => ⟨10, 20, 1, 1⟩) "k" = .ok (⟨10, 20, 1, 1⟩, [("k", ⟨10, 20, 1, 1⟩)]) ∧
    SVGCache.checkout [("k", ⟨10, 20, 1, 1⟩)] emptyEnv
      (fun _ => ⟨10, 20, 1, 1⟩) "k" = .ok (⟨10, 20, 1, 1⟩, [("k", ⟨10, 20, 1, 1⟩)]) ∧
    SVGCache.checkout [] emptyEnv (fun _ => ⟨10, 20, 1, 1⟩) "k" = .error "k" := by
  have h := checkout_spec [] (fun k => if k = "k" then some "p" else none)
    (fun _ => ⟨10, 20, 1, 1⟩) "k"
  have h1 := (h.2.1 rfl "p" (by simp)).1
  have h2 := (h.2.1 rfl "p" (by simp)).2 emptyEnv
  have h3 := (checkout_spec [] emptyEnv (fun _ => ⟨10, 20, 1, 1⟩) "k").2.2 rfl rfl
  exact ⟨h1, h2, h3⟩

/-- C8: resizing by height scales the cached drawing in place by the
uniform factor `k = height·inch / d.height` on both axes (aspect ratio
preserved); the nominal height attribute is unchanged, so a repeated call
uses the same factor again and compounds the scaling — the operation is
not idempotent. -/
theorem resize_drawing_by_height_spec (cache : Cache) (env : Env)
    (svg2rlg : String → Drawing) (key : String) (height : ℚ) (d : Drawing)
    (k : ℚ) (hd : cacheFind cache key = some d) (hH : d.height ≠ 0)
    (hk : k = height * inch / d.height) :
    SVGCache.resize_drawing_by_height cache env svg2rlg key height
      = .ok (d.scale k k, SVGCache.update cache key (d.scale k k)) ∧
    (d.scale k k).sx * d.sy = (d.scale k k).sy * d.sx ∧
    (d.scale k k).height = d.height ∧
    SVGCache.resize_drawing_by_height
        (SVGCache.update cache key (d.scale k k)) env svg2rlg key height
      = .ok ((d.scale k k).scale k k,
             SVGCache.update (SVGCache.update cache key (d.scale k k)) key
               ((d.scale k k).scale k k)) ∧
    ((d.scale k k).scale k k).sx = d.sx * (k * k) ∧
    (k ≠ 1 → k ≠ 0 → d.sx ≠ 0 → (d.scale k k).scale k k ≠ d.scale k k) := by
  subst hk
  have hco : SVGCache.checkout cache env svg2rlg key = .ok (d, cache) := by
    unfold SVGCache.checkout
    rw [hd]
  have hlk2 : cacheFind (SVGCache.update cache key
        (d.scale (height * inch / d.height) (height * inch / d.height))) key
      = some (d.scale (height * inch / d.height) (height * inch / d.height)) := by
    rw [SVGCache.cacheFind_update, hd]
    rfl
  have hco2 : SVGCache.checkout
      (SVGCache.update cache key
        (d.scale (height * inch / d.height) (height * inch / d.height)))
      env svg2rlg key
      = .ok (d.scale (height * inch / d.height) (height * inch / d.height),
             SVGCache.update cache key
               (d.scale (height * inch / d.height) (height * inch / d.height))) := by
    unfold SVGCache.checkout
    rw [hlk2]
  refine ⟨?_, ?_, rfl, ?_, ?_, ?_⟩
  · unfold SVGCache.resize_drawing_by_height
    rw [hco]
  · simp [Drawing.scale]
    ring
  · unfold SVGCache.resize_drawing_by_height
    rw [hco2]
    rfl
  · simp [Drawing.scale]
    ring
  · intro hne1 hne0 hsx heq
    have hsx_eq : d.sx * (height * inch / d.height) * (height * inch / d.height)
        = d.sx * (height * inch / d.height) := congrArg Drawing.sx heq
    set q := height * inch / d.height with hq
    have h1 : d.sx * q ≠ 0 := mul_ne_zero hsx hne0
    have h2 : d.sx * q * q = d.sx * q * 1 := by
      rw [mul_one]
      exact hsx_eq
    exact hne1 (mul_left_cancel₀ h1 h2)

/-- Witness for C8: a 2-inch-tall drawing (height attribute 144 points)
resized to height 4 is scaled by 2; resizing again scales by 2 again,
yielding accumulated scale 4 — not the same drawing as after one call. -/
theorem resize_drawing_by_height_spec_witness :
    SVGCache.resize_drawing_by_height [("k", ⟨72, 144, 1, 1⟩)] emptyEnv
      (fun _ => ⟨72, 144, 1, 1⟩) "k" 4
      = .ok (⟨72, 144, 2, 2⟩, [("k", ⟨72, 144, 2, 2⟩)]) ∧
    SVGCache.resize_drawing_by_height [("k", ⟨72, 144, 2, 2⟩)] emptyEnv
      (fun _ => ⟨72, 144, 1, 1⟩) "k" 4
      = .ok (⟨72, 144, 4, 4⟩, [("k", ⟨72, 144, 4, 4⟩)]) ∧
    (⟨72, 144, 4, 4⟩ : Drawing) ≠ ⟨72, 144, 2, 2⟩ := by
  have h := resize_drawing_by_height_spec [("k", ⟨72, 144, 1, 1⟩)] emptyEnv
    (fun _ => ⟨72, 144, 1, 1⟩) "k" 4 ⟨72, 144, 1, 1⟩ 2 (by decide) (by decide)
    (by norm_num [inch])
  refine ⟨?_, ?_, by decide⟩
  · have h1 := h.1
    simpa [Drawing.scale, SVGCache.update] using h1
  · have h4 := h.2.2.2.1
    have hupd : SVGCache.update [("k", (⟨72, 144, 1, 1⟩ : Drawing))] "k"
        ((⟨72, 144, 1, 1⟩ : Drawing).scale 2 2) = [("k", ⟨72, 144, 2, 2⟩)] := by
      simp [SVGCache.update, Drawing.scale]
    rw [hupd] at h4
    simpa [Drawing.scale, SVGCache.update,
      show (2 * 2 : ℚ) = 4 from by norm_num] using h4

/-! ## Style registry — `setup_styles` in `util/pdf.py` -/

/-- reportlab `TA_LEFT`. -/
def TA_LEFT : ℕ := 0

/-- reportlab `TA_CENTER`. -/
def TA_CENTER : ℕ := 1

/-- A reportlab `ParagraphStyle`, modelled by the attributes the repository
sets or reads. -/
structure PStyle where
  name : String
  fontName : String
  fontSize : ℚ
  leading : ℚ
  alignment : ℕ
  spaceBefore : ℚ
  spaceAfter : ℚ
  textColor : String
deriving DecidableEq, Repr

/-- The stock style sheet, modelled from reportlab's
`getSampleStyleSheet` (`byName` entries in insertion order). -/
def sampleStyleSheet : List PStyle :=
  [ ⟨"Normal", "Helvetica", 10, 12, TA_LEFT, 0, 0, "black"⟩,
    ⟨"BodyText", "Helvetica", 10, 12, TA_LEFT, 6, 0, "black"⟩,
    ⟨"Italic", "Helvetica-Oblique", 10, 12, TA_LEFT, 6, 0, "black"⟩,
    ⟨"Heading1", "Helvetica-Bold", 18, 22, TA_LEFT, 0, 6, "black"⟩,
    ⟨"Title", "Helvetica-Bold", 18, 22, TA_CENTER, 0, 6, "black"⟩,
    ⟨"Heading2", "Helvetica-Bold", 14, 18, TA_LEFT, 12, 6, "black"⟩,
    ⟨"Heading3", "Helvetica-BoldOblique", 12, 14, TA_LEFT, 12, 6, "black"⟩,
    ⟨"Heading4", "Helvetica-BoldOblique", 10, 12, TA_LEFT, 10, 4, "black"⟩,
    ⟨"Heading5", "Helvetica-Bold", 9, 10.8, TA_LEFT, 8, 4, "black"⟩,
    ⟨"Heading6", "Helvetica-Bold", 7, 8.4, TA_LEFT, 6, 2, "black"⟩,
    ⟨"Bullet", "Helvetica", 10, 12, TA_LEFT, 3, 0, "black"⟩,
    ⟨"Definition", "Helvetica", 10, 12, TA_LEFT, 6, 0, "black"⟩,
    ⟨"Code", "Courier", 8, 8.8, TA_LEFT, 0, 0, "black"⟩,
    ⟨"UnorderedList", "Helvetica", 10, 12, TA_LEFT, 0, 0, "black"⟩,
    ⟨"OrderedList", "Helvetica", 10, 12, TA_LEFT, 0, 0, "black"⟩ ]

/-- The stock sheet's alias table (`byAlias`), mapping each alias to the
canonical style name. -/
def sampleAliases : List (String × String) :=
  [ ("h1", "Heading1"), ("title", "Title"), ("h2", "Heading2"),
    ("h3", "Heading3"), ("h4", "Heading4"), ("h5", "Heading5"),
    ("h6", "Heading6"), ("bu", "Bullet"), ("df", "Definition"),
    ("ul", "UnorderedList"), ("ol", "OrderedList") ]

/-- Fetch a stock style for use as a `parent` in the custom style table. -/
def sampleStyle (name : String) : PStyle :=
  (sampleStyleSheet.find? (fun s => s.name == name)).getD
    ⟨"", "", 0, 0, 0, 0, 0, ""⟩

/-- `StyleSheet1.__getitem__`: look the name up in `byName` first, then in
`byAlias`. -/
def styleLookup (styles : List PStyle) (name : String) : Option PStyle :=
  match styles.find? (fun s => s.name == name) with
  | some s => some s
  | none =>
      match sampleAliases.lookup name with
      | some canonical => styles.find? (fun s => s.name == canonical)
      | none => none

/-- `style_name in styles` (`StyleSheet1.__contains__`). -/
def styleContains (styles : List PStyle) (name : String) : Bool :=
  (styleLookup styles name).isSome

/-- The `custom_styles` table of `setup_styles`: each entry inherits its
parent stock style's attributes and overrides the listed ones. -/
def customStyles : List PStyle :=
  [ { sampleStyle "Heading1" with
      name := "cTitle", fontSize := 24, leading := 28,
      alignment := TA_CENTER, spaceAfter := 20, textColor := "darkblue" },
    { sampleStyle "Heading2" with
      name := "cSubTitle", fontSize := 14, leading := 18,
      alignment := TA_CENTER, spaceAfter := 15, textColor := "darkblue" },
    { sampleStyle "BodyText" with
      name := "cBodyText", fontSize := 12, leading := 15,
      alignment := TA_LEFT, spaceAfter := 10 },
    { sampleStyle "Normal" with
      name := "cCenteredText", fontSize := 12, leading := 15,
      alignment := TA_CENTER, spaceAfter := 10 },
    { sampleStyle "Italic" with
      name := "cImageCaption", fontSize := 10, leading := 12,
      alignment := TA_CENTER, spaceBefore := 5, spaceAfter := 15 },
    { sampleStyle "Normal" with
      name := "cStopper", fontSize := 14, leading := 10,
      alignment := TA_CENTER, spaceBefore := 10, textColor := "darkred" } ]

/-- `setup_styles(font_name)`: start from the stock sheet, add each custom
style unless its name is already present (then it is skipped with a
warning), and finally force every style's `fontName` to the resolved font
name. -/
def setup_styles (font_name : String) : List PStyle :=
  let styles := customStyles.foldl
    (fun st c => if styleContains st c.name then st else st ++ [c])
    sampleStyleSheet
  styles.map (fun s => { s with fontName := font_name })

theorem setup_styles_eq (fn : String) :
    setup_styles fn = (sampleStyleSheet ++ customStyles).map
      (fun s => { s with fontName := fn }) := by
  rfl

theorem styleLookup_setup_bodyText (fn : String) :
    styleLookup (setup_styles fn) "BodyText"
      = some ⟨"BodyText", fn, 10, 12, TA_LEFT, 6, 0, "black"⟩ := by
  rfl

theorem styleLookup_setup_imageCaption (fn : String) :
    styleLookup (setup_styles fn) "ImageCaption" = none := by
  rfl

/-- C5: after `setup_styles(font_name)` runs, every style in the resulting
sheet — stock and custom alike — has its font field equal to the single
resolved font name. -/
theorem setup_styles_single_font (font_name : String) :
    ∀ s ∈ setup_styles font_name, s.fontName = font_name := by
  intro s hs
  unfold setup_styles at hs
  simp only [List.mem_map] at hs
  obtain ⟨t, _, rfl⟩ := hs
  rfl

/-- Witness for C5: the stock `Normal` entry of the sheet built for the
font `SimHei` carries the font `SimHei`. -/
theorem setup_styles_single_font_witness :
    PStyle.fontName ⟨"Normal", "SimHei", 10, 12, TA_LEFT, 0, 0, "black"⟩
      = "SimHei" := by
  refine setup_styles_single_font "SimHei" _ ?_
  rw [setup_styles_eq]
  exact List.mem_map.mpr
    ⟨⟨"Normal", "Helvetica", 10, 12, TA_LEFT, 0, 0, "black"⟩,
     List.mem_cons_self _ _, rfl⟩

/-! ## Document assembler — `util/pdf.py` -/

/-- A flowable content element stored in `self.elements`. -/
inductive Element where
  | paragraph (text : String) (style : PStyle)
  | image (source : String) (drawWidth drawHeight : ℚ)
  | spacer (w h : ℚ)
  | table (lines : List (List String)) (colWidth : ℚ)
  | pageBreak
  | frameBreak
  | nextPageTemplate (name : String)
deriving DecidableEq, Repr

/-- The assembler's mutable state: the pending element list, the output
byte buffer (`BytesIO`), the logged warnings, and the build date stamp. -/
structure PDFState where
  elements : List Element
  buff : List ℕ
  warnings : List String
  date : String
deriving DecidableEq, Repr

/-- The state of a freshly constructed `PDFGenerator`. -/
def pdfInit : PDFState := ⟨[], [], [], ""⟩

/-- One character of `html.escape` (quote=True): the markup-unsafe
characters are replaced by their escape sequences ('&' is replaced first
in the Python implementation, so no sequence is re-escaped — equivalent to
this character-wise substitution). -/
def escapeChar (c : Char) : String :=
  if c = '&' then "&amp;"
  else if c = '<' then "&lt;"
  else if c = '>' then "&gt;"
  else if c = Char.ofNat 34 then "&quot;"
  else if c = Char.ofNat 39 then "&#x27;"
  else String.singleton c

def htmlEscapeList : List Char → String
  | [] => ""
  | c :: cs => escapeChar c ++ htmlEscapeList cs

/-- `html.escape` on a whole string. -/
def htmlEscape (s : String) : String := htmlEscapeList s.data

/-- `PDFGenerator.insert_paragraph(text, style)` (default style
`'cBodyText'`): escape the text, look the style up; a `KeyError` falls
back to the stock `BodyText` style with a logged warning; a trailing
`Spacer(1, 0.2*inch)` is appended as well. -/
def insert_paragraph (styles : List PStyle) (st : PDFState) (text : String)
    (styleName : String) : Except String PDFState :=
  let t := htmlEscape text
  match styleLookup styles styleName with
  | some sty =>
      .ok { st with elements := st.elements ++
              [.paragraph t sty, .spacer 1 (0.2 * inch)] }
  | none =>
      match styleLookup styles "BodyText" with
      | some fallback =>
          .ok { st with
                elements := st.elements ++
                  [.paragraph t fallback, .spacer 1 (0.2 * inch)],
                warnings := st.warnings ++
                  ["The " ++ styleName ++
                   " is not available, using BodyText instead."] }
      | none => .error "KeyError: BodyText"

/-- `PDFGenerator.insert_image_with_caption(path, caption, width)`
(defaults `caption='N.A.'`, `width=6`): append the image scaled to the
requested width (keeping the intrinsic aspect ratio `imgW : imgH`), then
build the caption paragraph with the style `'ImageCaption'` — a `KeyError`
there escapes after the image has already been appended, so the caption
paragraph and the trailing spacer are never appended. -/
def insert_image_with_caption (styles : List PStyle) (st : PDFState)
    (source caption : String) (width imgW imgH : ℚ) :
    Option String × PDFState :=
  let drawWidth := width * inch
  let drawHeight := drawWidth / imgW * imgH
  let st1 := { st with elements := st.elements ++
                [.image source drawWidth drawHeight] }
  match styleLookup styles "ImageCaption" with
  | some sty =>
      (none, { st1 with elements := st1.elements ++
                [.paragraph caption sty, .spacer 1 (0.3 * inch)] })
  | none => (some "KeyError: ImageCaption", st1)

/-- `PDFGenerator.insert_page_break`. -/
def insert_page_break (st : PDFState) : PDFState :=
  { st with elements := st.elements ++ [.pageBreak] }

/-- `PDFGenerator.insert_frame_break`. -/
def insert_frame_break (st : PDFState) : PDFState :=
  { st with elements := st.elements ++ [.frameBreak] }

/-- `PDFGenerator.switch_page_template(name)`: a `NextPageTemplate`
marker followed by an automatic page break. -/
def switch_page_template (st : PDFState) (name : String) : PDFState :=
  insert_page_break { st with elements := st.elements ++ [.nextPageTemplate name] }

/-- `PDFUtil.build`: stamp the date, render the pending elements into the
buffer (layout and rendering are delegated to reportlab, modelled by the
oracle `render`), draining the element list (`doc.build` empties it). -/
def build (render : List Element → String → List ℕ) (st : PDFState)
    (now : String) : PDFState :=
  { st with date := now, buff := render st.elements now, elements := [] }

/-- A filesystem path, as its components. -/
abbrev FsPath := List String

/-- A filesystem: the existing directories and the written files. -/
structure FS where
  dirs : List FsPath
  files : List (FsPath × List ℕ)

/-- Read a file: the most recent write to the path wins. -/
def fsRead (files : List (FsPath × List ℕ)) (p : FsPath) : Option (List ℕ) :=
  match files with
  | [] => none
  | (q, c) :: rest => if p = q then some c else fsRead rest p

/-- `path.parent.mkdir(parents=True, exist_ok=True)`: every ancestor of
the path's parent directory exists afterwards. -/
def mkdirParents (fs : FS) (p : FsPath) : FS :=
  { fs with dirs := fs.dirs ++ p.dropLast.inits }

/-- `PDFUtil.save(path)`: create the parent directories, write the built
buffer's current value to the path, and return the path; the assembler
state is not touched. -/
def save (fs : FS) (st : PDFState) (p : FsPath) : FS × FsPath × PDFState :=
  let fs1 := mkdirParents fs p
  ({ fs1 with files := (p, st.buff) :: fs1.files }, p, st)

/-! ## Claims about the document assembler -/

/-- Shared computation: the fallback branch of `insert_paragraph` for an
unresolvable style name. -/
theorem insert_paragraph_fallback_eq (fn : String) (st : PDFState)
    (text styleName : String)
    (h : styleLookup (setup_styles fn) styleName = none) :
    insert_paragraph (setup_styles fn) st text styleName
      = .ok { st with
              elements := st.elements ++
                [.paragraph (htmlEscape text)
                   ⟨"BodyText", fn, 10, 12, TA_LEFT, 6, 0, "black"⟩,
                 .spacer 1 (0.2 * inch)],
              warnings := st.warnings ++
                ["The " ++ styleName ++
                 " is not available, using BodyText instead."] } := by
  unfold insert_paragraph
  rw [h, styleLookup_setup_bodyText]

/-- C3: inserting a paragraph with a style name that is not present in the
style sheet still succeeds: the paragraph is appended with the stock
`BodyText` style, a warning is logged, and the resulting document still
builds (the build drains the elements into the rendered buffer). -/
theorem insert_paragraph_unknown_style (fn : String) (st : PDFState)
    (text styleName : String)
    (h : styleLookup (setup_styles fn) styleName = none) :
    ∃ b, styleLookup (setup_styles fn) "BodyText" = some b ∧
      b.name = "BodyText" ∧
      insert_paragraph (setup_styles fn) st text styleName
        = .ok { st with
                elements := st.elements ++
                  [.paragraph (htmlEscape text) b, .spacer 1 (0.2 * inch)],
                warnings := st.warnings ++
                  ["The " ++ styleName ++
                   " is not available, using BodyText instead."] } ∧
      ∀ render now,
        (build render
          { st with
            elements := st.elements ++
              [.paragraph (htmlEscape text) b, .spacer 1 (0.2 * inch)],
            warnings := st.warnings ++
              ["The " ++ styleName ++
               " is not available, using BodyText instead."] } now).elements
          = [] := by
  refine ⟨⟨"BodyText", fn, 10, 12, TA_LEFT, 6, 0, "black"⟩,
    styleLookup_setup_bodyText fn, rfl,
    insert_paragraph_fallback_eq fn st text styleName h, ?_⟩
  intro render now
  rfl

/-- Witness for C3: inserting with the unknown style name `NoSuchStyle`
into a fresh generator whose font resolved to `F`. -/
theorem insert_paragraph_unknown_style_witness :
    insert_paragraph (setup_styles "F") pdfInit "hi" "NoSuchStyle"
      = .ok { pdfInit with
              elements := [.paragraph (htmlEscape "hi")
                             ⟨"BodyText", "F", 10, 12, TA_LEFT, 6, 0, "black"⟩,
                           .spacer 1 (0.2 * inch)],
              warnings := ["The " ++ "NoSuchStyle" ++
                           " is not available, using BodyText instead."] } := by
  obtain ⟨b, hb, _, heq, _⟩ :=
    insert_paragraph_unknown_style "F" pdfInit "hi" "NoSuchStyle" rfl
  have hbval : b = ⟨"BodyText", "F", 10, 12, TA_LEFT, 6, 0, "black"⟩ :=
    Option.some.inj (hb.symm.trans (styleLookup_setup_bodyText "F"))
  rw [hbval] at heq
  simpa using heq

/-- C4 counterexample: resolution of an unknown style name is NOT deferred
to build time — immediately after `insert_paragraph` returns, the stored
element sequence already carries the resolved stock `BodyText` style and
retains no reference to the requested name. -/
theorem insert_paragraph_resolution_not_deferred :
    ∃ st', insert_paragraph (setup_styles "F") pdfInit "hello" "NoSuchStyle"
        = .ok st' ∧
      (∃ e ∈ st'.elements,
        (match e with
         | .paragraph _ sty => some sty.name
         | _ => none) = some "BodyText") ∧
      ∀ e ∈ st'.elements,
        (match e with
         | .paragraph _ sty => some sty.name
         | _ => none) ≠ some "NoSuchStyle" := by
  refine ⟨{ pdfInit with
      elements := [.paragraph (htmlEscape "hello")
                     ⟨"BodyText", "F", 10, 12, TA_LEFT, 6, 0, "black"⟩,
                   .spacer 1 (0.2 * inch)],
      warnings := ["The " ++ "NoSuchStyle" ++
                   " is not available, using BodyText instead."] },
    ?_, ?_, ?_⟩
  · rfl
  · exact ⟨.paragraph (htmlEscape "hello")
        ⟨"BodyText", "F", 10, 12, TA_LEFT, 6, 0, "black"⟩,
      by simp, rfl⟩
  · intro e he
    simp only [List.mem_cons, List.mem_singleton] at he
    rcases he with rfl | rfl | he
    · simp
    · simp
    · simp at he

/-- C4 (amended): style-name resolution happens at insertion time — when
`insert_paragraph` is called with an unknown style name, the fallback
`BodyText` style is chosen immediately and the stored paragraph already
carries the fully resolved style record; the build step performs no
further style resolution. -/
theorem insert_paragraph_resolves_at_insertion (fn : String) (st : PDFState)
    (text styleName : String)
    (h : styleLookup (setup_styles fn) styleName = none) :
    ∃ b st', styleLookup (setup_styles fn) "BodyText" = some b ∧
      b.name = "BodyText" ∧
      insert_paragraph (setup_styles fn) st text styleName = .ok st' ∧
      st'.elements = st.elements ++
        [.paragraph (htmlEscape text) b, .spacer 1 (0.2 * inch)] ∧
      ∀ render now, (build render st' now).buff = render st'.elements now := by
  exact ⟨⟨"BodyText", fn, 10, 12, TA_LEFT, 6, 0, "black"⟩, _,
    styleLookup_setup_bodyText fn, rfl,
    insert_paragraph_fallback_eq fn st text styleName h, rfl,
    fun render now => rfl⟩

/-- Witness for C4's amended claim at a concrete input. -/
theorem insert_paragraph_resolves_at_insertion_witness :
    ∃ b st',
      styleLookup (setup_styles "G") "BodyText" = some b ∧
      b.name = "BodyText" ∧
      insert_paragraph (setup_styles "G") pdfInit "x" "Missing" = .ok st' ∧
      st'.elements = pdfInit.elements ++
        [.paragraph (htmlEscape "x") b, .spacer 1 (0.2 * inch)] ∧
      ∀ render now, (build render st' now).buff = render st'.elements now :=
  insert_paragraph_resolves_at_insertion "G" pdfInit "x" "Missing" rfl

theorem escapeChar_no_angle (c : Char) :
    ∀ x ∈ (escapeChar c).data, x ≠ '<' ∧ x ≠ '>' := by
  intro x hx
  unfold escapeChar at hx
  by_cases h1 : c = '&'
  · rw [if_pos h1] at hx
    fin_cases hx <;> exact ⟨by decide, by decide⟩
  rw [if_neg h1] at hx
  by_cases h2 : c = '<'
  · rw [if_pos h2] at hx
    fin_cases hx <;> exact ⟨by decide, by decide⟩
  rw [if_neg h2] at hx
  by_cases h3 : c = '>'
  · rw [if_pos h3] at hx
    fin_cases hx <;> exact ⟨by decide, by decide⟩
  rw [if_neg h3] at hx
  by_cases h4 : c = Char.ofNat 34
  · rw [if_pos h4] at hx
    fin_cases hx <;> exact ⟨by decide, by decide⟩
  rw [if_neg h4] at hx
  by_cases h5 : c = Char.ofNat 39
  · rw [if_pos h5] at hx
    fin_cases hx <;> exact ⟨by decide, by decide⟩
  rw [if_neg h5] at hx
  simp only [String.singleton] at hx
  have : x = c := by
    simpa using hx
  subst this
  exact ⟨h2, h3⟩

theorem htmlEscapeList_no_angle (cs : List Char) :
    ∀ x ∈ (htmlEscapeList cs).data, x ≠ '<' ∧ x ≠ '>' := by
  induction cs with
  | nil =>
      intro x hx
      simp [htmlEscapeList] at hx
  | cons c rest ih =>
      intro x hx
      simp only [htmlEscapeList, String.data_append, List.mem_append] at hx
      rcases hx with hx | hx
      · exact escapeChar_no_angle c x hx
      · exact ih x hx

/-- C6: `insert_paragraph` stores the markup-escaped version of its input:
whatever style branch is taken, the appended paragraph's text is
`htmlEscape text`; the escape replaces each literal `&`, `<`, `>` by its
escape sequence, the escaped text contains no literal `<` or `>` at all,
and in particular `<b>` is stored as `&lt;b&gt;`, never as a tag. -/
theorem insert_paragraph_escapes (fn : String) (st : PDFState)
    (text styleName : String) :
    (∀ st', insert_paragraph (setup_styles fn) st text styleName = .ok st' →
      ∃ sty, st'.elements = st.elements ++
        [.paragraph (htmlEscape text) sty, .spacer 1 (0.2 * inch)]) ∧
    (∀ cs : List Char, htmlEscape ⟨'&' :: cs⟩ = "&amp;" ++ htmlEscape ⟨cs⟩) ∧
    (∀ cs : List Char, htmlEscape ⟨'<' :: cs⟩ = "&lt;" ++ htmlEscape ⟨cs⟩) ∧
    (∀ cs : List Char, htmlEscape ⟨'>' :: cs⟩ = "&gt;" ++ htmlEscape ⟨cs⟩) ∧
    (∀ x ∈ (htmlEscape text).data, x ≠ '<' ∧ x ≠ '>') ∧
    htmlEscape "<b>" = "&lt;b&gt;" := by
  refine ⟨?_, fun cs => rfl, fun cs => rfl, fun cs => rfl,
    htmlEscapeList_no_angle text.data, rfl⟩
  intro st' hok
  unfold insert_paragraph at hok
  rcases hlook : styleLookup (setup_styles fn) styleName with _ | sty
  · rw [hlook] at hok
    rw [styleLookup_setup_bodyText fn] at hok
    refine ⟨⟨"BodyText", fn, 10, 12, TA_LEFT, 6, 0, "black"⟩, ?_⟩
    cases hok
    rfl
  · rw [hlook] at hok
    refine ⟨sty, ?_⟩
    cases hok
    rfl

/-- Witness for C6 at a concrete input: inserting `<b>` with the known
style `cBodyText` stores the literal escaped text `&lt;b&gt;`. -/
theorem insert_paragraph_escapes_witness :
    ∃ st' sty,
      insert_paragraph (setup_styles "F") pdfInit "<b>" "cBodyText" = .ok st' ∧
      st'.elements = [.paragraph "&lt;b&gt;" sty, .spacer 1 (0.2 * inch)] := by
  obtain ⟨sty, hsty⟩ :=
    (insert_paragraph_escapes "F" pdfInit "<b>" "cBodyText").1
      { pdfInit with
        elements := [.paragraph (htmlEscape "<b>")
            ⟨"cBodyText", "F", 12, 15, TA_LEFT, 6, 10, "black"⟩,
          .spacer 1 (0.2 * inch)] }
      rfl
  refine ⟨_, sty, rfl, ?_⟩
  simpa using hsty

/-- C10: `insert_image_with_caption` appends the image element and then
fails with a key-lookup error for the caption style `'ImageCaption'`
(the sheet only has `'cImageCaption'` and the stock sheet has no
`'ImageCaption'`); the failure is not atomic — the image element is
already in the sequence, the caption and spacer never arrive. -/
theorem insert_image_with_caption_fails (fn : String) (st : PDFState)
    (source caption : String) (width imgW imgH : ℚ) :
    insert_image_with_caption (setup_styles fn) st source caption width imgW imgH
      = (some "KeyError: ImageCaption",
         { st with elements := st.elements ++
             [.image source (width * inch) (width * inch / imgW * imgH)] }) := by
  unfold insert_image_with_caption
  rw [styleLookup_setup_imageCaption]

/-- C9: `save` returns its path, leaves the assembler state (and hence the
buffer) unchanged, creates the missing parent directories, and two
sequential saves to two different paths write byte-identical content (the
built buffer) to both. -/
theorem save_spec (fs : FS) (st : PDFState) (p1 p2 : FsPath)
    (hne : p1 ≠ p2) :
    (save fs st p1).2.1 = p1 ∧
    (save fs st p1).2.2 = st ∧
    (∀ q, q <+: p1.dropLast → q ∈ ((save fs st p1).1).dirs) ∧
    fsRead ((save ((save fs st p1).1) st p2).1).files p2 = some st.buff ∧
    fsRead ((save ((save fs st p1).1) st p2).1).files p1 = some st.buff := by
  refine ⟨rfl, rfl, ?_, ?_, ?_⟩
  · intro q hq
    simp only [save, mkdirParents, List.mem_append]
    exact Or.inr ((List.mem_inits q (List.dropLast p1)).mpr hq)
  · simp [save, mkdirParents, fsRead]
  · simp [save, mkdirParents, fsRead, hne]

/-- Witness for C9: saving a built buffer to `out/a.pdf` and then to
`out/b.pdf` leaves both files holding the same bytes. -/
theorem save_spec_witness :
    (save ⟨[], []⟩ ⟨[], [1, 2, 3], [], "d"⟩ ["out", "a.pdf"]).2.1
      = ["out", "a.pdf"] ∧
    fsRead ((save ((save ⟨[], []⟩ ⟨[], [1, 2, 3], [], "d"⟩
        ["out", "a.pdf"]).1) ⟨[], [1, 2, 3], [], "d"⟩ ["out", "b.pdf"]).1).files
        ["out", "b.pdf"] = some [1, 2, 3] ∧
    fsRead ((save ((save ⟨[], []⟩ ⟨[], [1, 2, 3], [], "d"⟩
        ["out", "a.pdf"]).1) ⟨[], [1, 2, 3], [], "d"⟩ ["out", "b.pdf"]).1).files
        ["out", "a.pdf"] = some [1, 2, 3] := by
  have h := save_spec ⟨[], []⟩ ⟨[], [1, 2, 3], [], "d"⟩
    ["out", "a.pdf"] ["out", "b.pdf"] (by decide)
  exact ⟨h.1, h.2.2.2.1, h.2.2.2.2⟩

end PDFFactory
